import Mathlib

/-!
Shallow embedding of the ib-data-ingestion pipeline core, translated from the
Python sources:

* `src/src/utils/validation.py`   — `DataValidator` (schema validation, range
  reclassification, quality score)
* `src/pipelines/template/load.py` — template `DataLoader` (batched bronze load)
* `src/pipelines/source_1/load.py` — source_1 `DataLoader` (partitioned load)
* `src/pipelines/template/extract.py` — `DataExtractor` (retrying page fetch)
* `src/monitoring/alerts.py`      — `AlertManager` (threshold alerts)
* `src/utils/monitoring.py`       — `MetricsCollector` (error-rate check)

Python dict values are modelled by `JValue`, records (dicts) by ordered
association lists.  External effects (database inserts, SMTP send, the
ISO-8601 parser of `datetime.fromisoformat`) are modelled as explicit
oracles / parameters, so every definition stays executable.
-/

/-- Values stored in a Python record dict, as far as the pipeline inspects
them: `None`, strings, numbers (modelled as rationals, a faithful model of the
decimal comparisons the code performs), booleans, and anything else opaque. -/
inductive JValue where
  | null : JValue
  | str (s : String) : JValue
  | num (q : ℚ) : JValue
  | boolean (b : Bool) : JValue
  | other : JValue
deriving DecidableEq, Repr

/-- A Python dict with string keys, in insertion order. -/
abbrev Record := List (String × JValue)

/-- Dict lookup (`data[k]` / `k in data`): first binding of the key wins. -/
def Record.lookup : Record → String → Option JValue
  | [], _ => none
  | (k, v) :: rest, key => if k = key then some v else Record.lookup rest key

/-- `k in data` in Python. -/
def Record.hasField (r : Record) (k : String) : Bool :=
  (r.lookup k).isSome

/-- `data.get(k, d)` in Python. -/
def Record.getD (r : Record) (k : String) (d : JValue) : JValue :=
  (r.lookup k).getD d

/-- Dict assignment `data[k] = v`: updates the existing binding in place or
appends a new one at the end (Python dicts preserve insertion order). -/
def Record.set : Record → String → JValue → Record
  | [], k, v => [(k, v)]
  | (k', v') :: rest, k, v =>
      if k' = k then (k, v) :: rest else (k', v') :: Record.set rest k v

/-- Boolean test that `needle` is a leading segment of `hay`. -/
def isLeadingB : List Char → List Char → Bool
  | [], _ => true
  | _ :: _, [] => false
  | a :: as, b :: bs => a = b && isLeadingB as bs

/-- Boolean substring test (`needle in hay` on Python strings). -/
def containsB (needle : List Char) : List Char → Bool
  | [] => isLeadingB needle []
  | b :: bs => isLeadingB needle (b :: bs) || containsB needle bs

namespace Validation

/-- Result record returned by `DataValidator.validate`
(`src/src/utils/validation.py`, `ValidationResult`). -/
structure ValidationResult where
  is_valid : Bool
  errors : List String
  warnings : List String
deriving DecidableEq, Repr

/-- The per-property fragment of a Draft-7 JSON schema that this repository's
validator reads: a primitive `type` plus numeric `minimum` / `maximum`. -/
structure PropSchema where
  type : Option String
  minimum : Option ℚ
  maximum : Option ℚ
deriving DecidableEq, Repr

/-- The schema fragment `DataValidator` consumes: `required` field names and
`properties`. -/
structure Schema where
  required : List String
  properties : List (String × PropSchema)
deriving DecidableEq, Repr

/-- Primitive type conformance, as `jsonschema` checks it for the type names
this repository's schemas use. -/
def typeMatches (t : String) (v : JValue) : Bool :=
  match t, v with
  | "string", .str _ => true
  | "number", .num _ => true
  | "integer", .num _ => true
  | "boolean", .boolean _ => true
  | "null", .null => true
  | _, _ => false

/-- Structured form of the first schema violation `jsonschema` reports. -/
inductive SchemaErr where
  | requiredMissing (field : String)
  | typeErr (prop : String) (v : JValue) (expected : String)
  | belowMin (prop : String) (v mn : ℚ)
  | aboveMax (prop : String) (v mx : ℚ)
deriving DecidableEq, Repr

/-- Range (minimum/maximum) check of one property, applied by `jsonschema`
only to numeric instances. -/
def rangeCheck (name : String) (ps : PropSchema) (v : JValue) : Option SchemaErr :=
  match v with
  | .num q =>
      (match ps.minimum with
       | some mn => if q < mn then some (.belowMin name q mn) else none
       | none => none) <|>
      (match ps.maximum with
       | some mx => if mx < q then some (.aboveMax name q mx) else none
       | none => none)
  | _ => none

/-- Full check of one property against its schema fragment: type first, then
range.  Absent fields are not property violations (presence is `required`'s
job). -/
def propCheck (name : String) (ps : PropSchema) (v : Option JValue) : Option SchemaErr :=
  match v with
  | none => none
  | some v =>
      match ps.type with
      | some t => if typeMatches t v then rangeCheck name ps v else some (.typeErr name v t)
      | none => rangeCheck name ps v

/-- Model of `jsonschema.Draft7Validator.validate`, which raises (only) the
first violation it finds: missing required fields first, then per-property
violations in schema order. -/
def firstSchemaError (s : Schema) (data : Record) : Option SchemaErr :=
  match s.required.find? (fun f => !(data.lookup f).isSome) with
  | some f => some (.requiredMissing f)
  | none => s.properties.findSome? (fun p => propCheck p.1 p.2 (data.lookup p.1))

/-- Textual form of a value as it appears inside an error message. -/
def jvalueText : JValue → String
  | .null => "None"
  | .str s => s
  | .num q => toString q
  | .boolean b => toString b
  | .other => "object"

/-- Rendering of `str(e)` for a `jsonschema.ValidationError`, after the
message rewriting of `validate` (lines 50-61): "is not of type" messages are
rewritten to the quoted `is not of a type(s)` form, other messages keep the
library's multi-line text, which names the violated keyword and the offending
property path (`schema['properties'][p]` / `instance[p]`). -/
def renderErr : SchemaErr → String
  | .requiredMissing f =>
      "'" ++ f ++ "' is a required property"
  | .typeErr _ v t =>
      "'" ++ jvalueText v ++ "' is not of a type(s) '" ++ t ++ "'"
  | .belowMin p v mn =>
      toString v ++ " is less than the minimum of " ++ toString mn ++
        "\n\nFailed validating 'minimum' in schema['properties']['" ++ p ++
        "']:\n\nOn instance['" ++ p ++ "']:"
  | .aboveMax p v mx =>
      toString v ++ " is greater than the maximum of " ++ toString mx ++
        "\n\nFailed validating 'maximum' in schema['properties']['" ++ p ++
        "']:\n\nOn instance['" ++ p ++ "']:"

/-- Characters of a string, lower-cased (`e.lower()`). -/
def lowerList (s : String) : List Char := s.toList.map Char.toLower

/-- `needle in e.lower()` for a lower-case needle. -/
def strContainsLower (e needle : String) : Bool :=
  containsB needle.toList (lowerList e)

/-- The reclassification predicate of `validate` (line 89):
`'value' in e.lower() and ('minimum' in e.lower() or 'maximum' in e.lower())`. -/
def isValueRangeErr (e : String) : Bool :=
  strContainsLower e "value" && (strContainsLower e "minimum" || strContainsLower e "maximum")

/-- `timestamp.replace('Z', '+00:00')` at character level. -/
def replaceZ : List Char → List Char
  | [] => []
  | c :: cs =>
      if c = 'Z' then '+' :: '0' :: '0' :: ':' :: '0' :: '0' :: replaceZ cs
      else c :: replaceZ cs

/-- `DataValidator.validate_timestamp`: `datetime.fromisoformat` is an
external parser, passed in as the oracle `parse_ok`; the `Z` normalization is
performed first, as in the source. -/
def validate_timestamp (parse_ok : List Char → Bool) (timestamp : String) : Bool :=
  parse_ok (replaceZ timestamp.toList)

/-- The timestamp branch of `validate` (lines 63-66).  A present
non-string timestamp makes `timestamp.replace` raise an `AttributeError`
that the source does not catch, modelled as `.error`. -/
def tsStep (parse_ok : List Char → Bool) (data : Record) : Except String (List String) :=
  match data.lookup "timestamp" with
  | none => .ok []
  | some (.str t) =>
      if validate_timestamp parse_ok t then .ok [] else .ok ["is not a 'date-time'"]
  | some _ => .error "AttributeError: object has no attribute replace"

/-- Schema bound for the `value` property
(`self.schema.get('properties', \x7b\x7d).get('value', \x7b\x7d)`). -/
def valueProp (s : Schema) : Option PropSchema :=
  (s.properties.find? (fun p => p.1 = "value")).map Prod.snd

/-- The warning block of `validate` (lines 68-76): numeric `value` outside
the configured bounds appends warnings. -/
def rangeWarnings (s : Schema) (data : Record) : List String :=
  match data.lookup "value" with
  | some (.num q) =>
      (match (valueProp s).bind PropSchema.minimum with
       | some m =>
           if q < m then ["Value " ++ toString q ++ " is below minimum " ++ toString m] else []
       | none => []) ++
      (match (valueProp s).bind PropSchema.maximum with
       | some m =>
           if m < q then ["Value " ++ toString q ++ " is above maximum " ++ toString m] else []
       | none => [])
  | _ => []

/-- The custom-rule loop of `validate` (lines 78-82): a failing rule appends
its message only when the message is truthy (non-`None`, non-empty). -/
def customErrors (rules : List (Record → Bool × Option String)) (data : Record) : List String :=
  rules.filterMap (fun rule =>
    match rule data with
    | (false, some e) => if e = "" then none else some e
    | _ => none)

/-- `DataValidator.validate` (lines 33-99): jsonschema first error, timestamp
check, range warnings, custom rules, then the range-error reclassification
block (lines 84-93). -/
def validate (parse_ok : List Char → Bool) (s : Schema)
    (rules : List (Record → Bool × Option String)) (data : Record) :
    Except String ValidationResult :=
  let errors0 : List String :=
    match firstSchemaError s data with
    | some e => [renderErr e]
    | none => []
  match tsStep parse_ok data with
  | .error e => .error e
  | .ok tsErrs =>
      let warnings0 := rangeWarnings s data
      let errors2 := (errors0 ++ tsErrs) ++ customErrors rules data
      let is_valid := errors2.isEmpty
      if !is_valid && data.hasField "value" then
        let value_errors := errors2.filter isValueRangeErr
        if value_errors.length = errors2.length then
          .ok ⟨true, [], warnings0 ++ value_errors⟩
        else
          .ok ⟨is_valid, errors2, warnings0⟩
      else
        .ok ⟨is_valid, errors2, warnings0⟩

/-- The fixed tail of the rendered message for a below-minimum violation of
the `value` property. -/
def belowCtx : String :=
  "\n\nFailed validating 'minimum' in schema['properties']['" ++ "value" ++
    "']:\n\nOn instance['" ++ "value" ++ "']:"

/-- The fixed tail of the rendered message for an above-maximum violation of
the `value` property. -/
def aboveCtx : String :=
  "\n\nFailed validating 'maximum' in schema['properties']['" ++ "value" ++
    "']:\n\nOn instance['" ++ "value" ++ "']:"

/-- Number of required fields absent from the record
(`missing_fields` of `_calculate_quality_score`). -/
def missingRequiredCount (s : Schema) (data : Record) : Nat :=
  (s.required.filter (fun f => !(data.lookup f).isSome)).length

/-- Number of `None`-valued fields (`null_count`). -/
def nullCount (data : Record) : Nat :=
  (data.filter (fun p => p.2 = JValue.null)).length

/-- Whether `value.strip()` is falsy for a string value (all-whitespace or
empty). -/
def isBlankValue : JValue → Bool
  | .str s => s.toList.all Char.isWhitespace
  | _ => false

/-- Number of empty-string fields (`empty_string_count`). -/
def emptyStringCount (data : Record) : Nat :=
  (data.filter (fun p => isBlankValue p.2)).length

/-- `DataValidator._calculate_quality_score` (lines 126-146): start at 1.0,
subtract the three penalties (each only applied when its count is positive,
as in the source), clamp with `max(0.0, min(1.0, score))`. -/
def calculate_quality_score (s : Schema) (data : Record) : ℚ :=
  let score : ℚ := 1
  let m := missingRequiredCount s data
  let score := if 0 < m then score - (1/10) * m else score
  let n := nullCount data
  let score := if 0 < n then score - (1/20) * n else score
  let e := emptyStringCount data
  let score := if 0 < e then score - (1/50) * e else score
  max 0 (min 1 score)

end Validation

namespace Alerts

/-- The metric fields `AlertManager.check_alerts` reads from its `metrics`
dict (`src/monitoring/alerts.py`); `none` models an absent key. -/
structure Metrics where
  error_rate : Option ℚ
  latency : Option ℚ
  quality_score : Option ℚ
  cpu_utilization : Option ℚ
  memory_utilization : Option ℚ
  disk_utilization : Option ℚ
deriving DecidableEq, Repr

/-- An alert dict as built by `check_alerts`; the timestamp is added later by
`_process_alert`. -/
structure Alert where
  level : String
  message : String
  metric : String
  value : ℚ
  threshold : ℚ
deriving DecidableEq, Repr

/-- `self.alert_thresholds['error_rate']`. -/
def error_rate_threshold : ℚ := 5/100

/-- `self.alert_thresholds['latency']` (seconds). -/
def latency_threshold : ℚ := 300

/-- `self.alert_thresholds['data_quality']`. -/
def data_quality_threshold : ℚ := 8/10

/-- `self.alert_thresholds['resource_utilization']`, in dict order. -/
def resource_thresholds : List (String × ℚ) :=
  [("cpu", 8/10), ("memory", 85/100), ("disk", 85/100)]

/-- `metrics.get(resource + '_utilization', 0)`. -/
def resourceValue (m : Metrics) : String → ℚ
  | "cpu" => m.cpu_utilization.getD 0
  | "memory" => m.memory_utilization.getD 0
  | "disk" => m.disk_utilization.getD 0
  | _ => 0

/-- Abstraction of Python `:.2%` / `:.2f` numeric formatting inside alert
messages. -/
def fmtNum (q : ℚ) : String := toString q

/-- The alert-building part of `AlertManager.check_alerts` (lines 26-67):
each threshold comparison appends one alert dict, in source order. -/
def build_alerts (m : Metrics) : List Alert :=
  let alerts : List Alert := []
  let alerts := alerts ++
    (if error_rate_threshold < m.error_rate.getD 0 then
      [⟨"ERROR", "High error rate detected: " ++ fmtNum (m.error_rate.getD 0),
        "error_rate", m.error_rate.getD 0, error_rate_threshold⟩]
     else [])
  let alerts := alerts ++
    (if latency_threshold < m.latency.getD 0 then
      [⟨"WARNING", "High latency detected: " ++ fmtNum (m.latency.getD 0) ++ " seconds",
        "latency", m.latency.getD 0, latency_threshold⟩]
     else [])
  let alerts := alerts ++
    (if m.quality_score.getD 1 < data_quality_threshold then
      [⟨"WARNING", "Low data quality score: " ++ fmtNum (m.quality_score.getD 1),
        "quality_score", m.quality_score.getD 1, data_quality_threshold⟩]
     else [])
  let alerts := alerts ++
    (resource_thresholds.filterMap (fun rt =>
      if rt.2 < resourceValue m rt.1 then
        some ⟨"WARNING", "High " ++ rt.1 ++ " utilization: " ++ fmtNum (resourceValue m rt.1),
          rt.1 ++ "_utilization", resourceValue m rt.1, rt.2⟩
      else none))
  alerts

end Alerts

namespace Monitoring

/-- Per-source accumulator of `MetricsCollector` (`src/utils/monitoring.py`). -/
structure SourceMetrics where
  total_records : Nat
  error_count : Nat
  latency : List ℚ
deriving DecidableEq, Repr

/-- A warning logged by `MetricsCollector._check_alerts`. -/
inductive MCWarning where
  | highErrorRate (source : String) (rate : ℚ)
  | highLatency (source : String) (avg : ℚ)
deriving DecidableEq, Repr

/-- `self.alert_thresholds['error_rate']` of `MetricsCollector`. -/
def mc_error_rate_threshold : ℚ := 5/100

/-- `self.alert_thresholds['latency']` of `MetricsCollector` (seconds). -/
def mc_latency_threshold : ℚ := 2

/-- `MetricsCollector._check_alerts` (lines 37-55): the error rate is
computed and compared only under the `total_records > 0` guard; the average
latency only when the latency list is non-empty. -/
def check_alerts (source : String) (m : SourceMetrics) : List MCWarning :=
  let w : List MCWarning := []
  let w := w ++
    (if 0 < m.total_records then
      (let error_rate : ℚ := (m.error_count : ℚ) / (m.total_records : ℚ)
       if mc_error_rate_threshold < error_rate then [.highErrorRate source error_rate] else [])
     else [])
  let w := w ++
    (if !m.latency.isEmpty then
      (let avg : ℚ := m.latency.sum / (m.latency.length : ℚ)
       if mc_latency_threshold < avg then [.highLatency source avg] else [])
     else [])
  w

end Monitoring

/-- Whether an `Except` result is a success. -/
def isOkB {ε α : Type} : Except ε α → Bool
  | .ok _ => true
  | .error _ => false

namespace TemplateLoader

/-- Per-batch result dict of `DataLoader._load_batch`
(`src/pipelines/template/load.py`): success/failure counters plus
`(record_id, error)` entries. -/
structure BatchResult where
  successful_records : Nat
  failed_records : Nat
  errors : List (JValue × String)
deriving DecidableEq, Repr

/-- `DataLoader._load_batch` (lines 95-140): for each record, set
`record['source'] = self.source_name` (mutating the caller's dict), then
attempt the insert (`DatabaseManager.insert_bronze_data`, modelled by the
oracle `ins`); a failure is caught, counted, and recorded with
`record.get('raw_id', 'unknown')` and the error text, and the loop
continues.  The second component is the batch as the caller sees it after
the loop (the in-place `source` mutations). -/
def load_batch (source_name : String) (ins : Record → Except String Unit) :
    List Record → BatchResult × List Record
  | [] => (⟨0, 0, []⟩, [])
  | r :: rest =>
      let r' := r.set "source" (.str source_name)
      let head : BatchResult :=
        match ins r' with
        | .ok _ => ⟨1, 0, []⟩
        | .error e => ⟨0, 1, [(r'.getD "raw_id" (.str "unknown"), e)]⟩
      let tail := load_batch source_name ins rest
      (⟨head.successful_records + tail.1.successful_records,
        head.failed_records + tail.1.failed_records,
        head.errors ++ tail.1.errors⟩,
       r' :: tail.2)

/-- Run-level result dict of `DataLoader.load`. -/
structure LoadResult where
  total_records : Nat
  successful_records : Nat
  failed_records : Nat
  errors : List (JValue × String)
deriving DecidableEq, Repr

/-- Batching of `data[i:i + batch_size]` for batch size `n + 1`. -/
def chunksSucc (n : Nat) : List α → List (List α)
  | [] => []
  | x :: xs => (x :: xs).take (n + 1) :: chunksSucc n ((x :: xs).drop (n + 1))
termination_by l => l.length
decreasing_by simp; omega

/-- `batch_size = 100` of `DataLoader.load`. -/
def batch_size : Nat := 100

/-- `DataLoader.load` (lines 31-93): `total_records` is the input length,
recorded up front; each batch's counters and errors are accumulated.
(The `DatabaseManager.initialize`/`close` calls around the loop perform no
record-level work and are elided.) -/
def load (source_name : String) (ins : Record → Except String Unit)
    (data : List Record) : LoadResult :=
  (chunksSucc (batch_size - 1) data).foldl
    (fun acc batch =>
      let br := (load_batch source_name ins batch).1
      ⟨acc.total_records, acc.successful_records + br.successful_records,
       acc.failed_records + br.failed_records, acc.errors ++ br.errors⟩)
    ⟨data.length, 0, 0, []⟩

end TemplateLoader

namespace Extractor

/-- Extractor configuration (`src/pipelines/template/extract.py`, lines
8-13): `rate_limit` requests per minute, `retry_attempts`, `retry_delay`
seconds. -/
structure Config where
  rate_limit : ℚ
  retry_attempts : Nat
  retry_delay : ℚ
deriving DecidableEq, Repr

/-- What one attempted HTTP fetch of a page does (the oracle's answer):
succeed with items, fail with a transient `aiohttp.ClientError`, or fail
with any other (non-transient) exception. -/
inductive FetchOutcome where
  | ok (items : List Record)
  | transient (e : String)
  | fatal (e : String)
deriving DecidableEq, Repr

/-- Trace of one `_fetch_page` call: the returned value (`.ok none` models
Python falling out of the retry loop and returning `None`, possible only
when `retry_attempts = 0`), the backoff sleeps performed in order, and the
number of fetch attempts made. -/
structure PageTrace where
  res : Except String (Option (List Record))
  sleeps : List ℚ
  attempts : Nat
deriving Repr

/-- The body of `_fetch_page`'s `for attempt in range(retry_attempts)` loop
(lines 56-94), over the remaining attempt indices.  A successful fetch
returns; an `aiohttp.ClientError` re-raises on the last attempt
(`attempt == retry_attempts - 1`) and otherwise sleeps
`retry_delay * (attempt + 1)` and retries; any other exception re-raises
immediately. -/
def fetch_page_go (oracle : Nat → FetchOutcome) (retry_delay : ℚ)
    (retry_attempts : Nat) : List Nat → PageTrace
  | [] => ⟨.ok none, [], 0⟩
  | a :: rest =>
      match oracle a with
      | .ok items => ⟨.ok (some items), [], 1⟩
      | .fatal e => ⟨.error e, [], 1⟩
      | .transient e =>
          if a = retry_attempts - 1 then ⟨.error e, [], 1⟩
          else
            let t := fetch_page_go oracle retry_delay retry_attempts rest
            ⟨t.res, retry_delay * ((a : ℚ) + 1) :: t.sleeps, t.attempts + 1⟩

/-- `DataExtractor._fetch_page` for one date: the oracle gives the outcome
of each attempt (the metadata stamping on success is payload-only and kept
abstract inside the items). -/
def fetch_page (oracle : Nat → FetchOutcome) (cfg : Config) : PageTrace :=
  fetch_page_go oracle cfg.retry_delay cfg.retry_attempts (List.range cfg.retry_attempts)

/-- `DataExtractor.fetch_data` (lines 25-54) over a list of day indices:
before each page a rate-limit sleep of `60 / rate_limit` happens
unconditionally; a page-fetch failure is logged and re-raised, aborting the
whole extraction; page items are concatenated in order.  (`self.session`
is assumed initialized, as under `async with`.) -/
def fetch_data_go (oracle : Nat → Nat → FetchOutcome) (cfg : Config) :
    List Nat → Except String (List Record)
  | [] => .ok []
  | d :: rest =>
      let t := fetch_page (oracle d) cfg
      match t.res with
      | .error e => .error e
      | .ok none => .error "TypeError: NoneType is not iterable"
      | .ok (some items) =>
          match fetch_data_go oracle cfg rest with
          | .error e => .error e
          | .ok acc => .ok (items ++ acc)

end Extractor

namespace SourceOne

/-- Destination-database state visible to the source_1 loader: the existing
partitions, keyed by `(source_name, partition_date)`, plus the log of actual
partition creations performed. -/
structure DbState where
  partitions : List (String × String)
  creations : List (String × String)
deriving DecidableEq, Repr

/-- Modelled from the spec: the SQL function `create_partition_if_not_exists`
that `DatabaseManager.create_partition` (`src/utils/db.py`, lines 109-114)
invokes lives in the database, outside `src/`.  Per the spec, "Partition
creation is idempotent: creating an already-existing partition for a date is
a no-op, not an error": a creation event is recorded only when the partition
is absent. -/
def create_partition_if_not_exists (st : DbState) (source date : String) : DbState :=
  if (source, date) ∈ st.partitions then st
  else ⟨(source, date) :: st.partitions, st.creations ++ [(source, date)]⟩

/-- `datetime.fromisoformat(timestamp).date().isoformat()`: the calendar-date
part of an ISO-8601 timestamp (the characters before the time separator). -/
def dateOf (ts : String) : String :=
  String.mk (ts.toList.takeWhile (fun c => c ≠ 'T'))

/-- `DataLoader._ensure_partition` (`src/pipelines/source_1/load.py`, lines
58-61): the source table is fixed to `source_1`. -/
def ensure_partition (st : DbState) (ts : String) : DbState :=
  create_partition_if_not_exists st "source_1" (dateOf ts)

/-- The per-record loop of source_1's `DataLoader.load` (lines 28-41),
returning the final database state, `records_processed`, and the error
messages in loop order.  A missing `source_timestamp` key raises `KeyError`
before the partition call; both it and an insert failure are caught by the
per-record `except`, recorded, and the loop continues. -/
def load_go (ins : Record → Except String Unit) :
    List Record → DbState → DbState × Nat × List String
  | [], st => (st, 0, [])
  | r :: rest, st =>
      match r.lookup "source_timestamp" with
      | some (.str ts) =>
          let st' := ensure_partition st ts
          match ins r with
          | .ok _ =>
              let t := load_go ins rest st'
              (t.1, t.2.1 + 1, t.2.2)
          | .error e =>
              let t := load_go ins rest st'
              (t.1, t.2.1, ("Error loading record: " ++ e) :: t.2.2)
      | _ =>
          let t := load_go ins rest st
          (t.1, t.2.1, "Error loading record: KeyError" :: t.2.2)

/-- `LoadResult` of source_1's loader. -/
structure LoadResult where
  success : Bool
  records_processed : Nat
  errors : List String
deriving DecidableEq, Repr

/-- source_1's `DataLoader.load` (lines 19-56), given a healthy transaction
scope: per-record failures accumulate; `success` is `errors == []`. -/
def load (ins : Record → Except String Unit) (data : List Record) (st : DbState) :
    LoadResult × DbState :=
  let t := load_go ins data st
  (⟨t.2.2.isEmpty, t.2.1, t.2.2⟩, t.1)

end SourceOne

namespace Alerts

/-- Configuration read by `AlertManager._process_alert` and
`_send_notification`: `enable_notifications` and whether `smtp_config` is
present. -/
structure AMConfig where
  enable_notifications : Bool
  has_smtp_config : Bool
deriving DecidableEq, Repr

/-- An alert once `_process_alert` has stamped it with
`datetime.utcnow().isoformat()`. -/
structure StampedAlert where
  alert : Alert
  timestamp : String
deriving DecidableEq, Repr

/-- Observable side effects of alert processing: logger lines, SMTP dispatch
attempts, and the logged dispatch failures. -/
inductive AMEvent where
  | logged (level message : String)
  | smtpSend (a : StampedAlert)
  | sendFailureLogged (e : String)
deriving DecidableEq, Repr

/-- The `AlertManager` state mutated while processing alerts
(`alert_history`), plus the trace of events. -/
structure AMState where
  alert_history : List StampedAlert
  events : List AMEvent
deriving DecidableEq, Repr

/-- `AlertManager._send_notification` (lines 103-141): without `smtp_config`
it returns at once; otherwise the SMTP dispatch (oracle `send`) is
attempted, and an exception is caught and logged — never re-raised. -/
def send_notification (cfg : AMConfig) (send : StampedAlert → Except String Unit)
    (st : AMState) (a : StampedAlert) : AMState :=
  if !cfg.has_smtp_config then st
  else
    match send a with
    | .ok _ => { st with events := st.events ++ [.smtpSend a] }
    | .error e => { st with events := st.events ++ [.smtpSend a, .sendFailureLogged e] }

/-- `AlertManager._process_alert` (lines 75-101): stamp the alert, log it,
append it to `alert_history`, and only when `enable_notifications` is set,
dispatch the notification. -/
def process_alert (cfg : AMConfig) (send : StampedAlert → Except String Unit)
    (now : String) (st : AMState) (a : Alert) : AMState :=
  let sa : StampedAlert := ⟨a, now⟩
  let st1 : AMState :=
    { st with events := st.events ++ [.logged a.level a.message] }
  let st2 : AMState :=
    { st1 with alert_history := st1.alert_history ++ [sa] }
  if cfg.enable_notifications then send_notification cfg send st2 sa else st2

/-- The `for alert in alerts: self._process_alert(alert)` loop of
`check_alerts` (lines 70-71). -/
def process_alerts (cfg : AMConfig) (send : StampedAlert → Except String Unit)
    (now : String) (st : AMState) (alerts : List Alert) : AMState :=
  alerts.foldl (process_alert cfg send now) st

end Alerts

/-- C1: for every schema and record, `_calculate_quality_score` starts at
1.0, subtracts 0.1 per missing required field, 0.05 per null-valued field and
0.02 per empty-string field, clamps to [0,1], and therefore always lands in
[0,1]. -/
theorem quality_score_formula_and_unit_interval (s : Validation.Schema) (data : Record) :
    0 ≤ Validation.calculate_quality_score s data ∧
    Validation.calculate_quality_score s data ≤ 1 ∧
    Validation.calculate_quality_score s data =
      max 0 (min 1 (1 - (1/10) * (Validation.missingRequiredCount s data : ℚ)
        - (1/20) * (Validation.nullCount data : ℚ)
        - (1/50) * (Validation.emptyStringCount data : ℚ))) := by
  refine ⟨le_max_left _ _, max_le (by norm_num) (min_le_left _ _), ?_⟩
  unfold Validation.calculate_quality_score
  have step : ∀ (c x : ℚ) (k : Nat), (if 0 < k then x - c * k else x) = x - c * k := by
    intro c x k
    rcases Nat.eq_zero_or_pos k with h | h
    · simp [h]
    · simp [h]
  simp only [step]

/-- C6: with metrics reporting an error rate of 0.06 (6 errors in 100
records) and no other metric present, `check_alerts` builds exactly one
alert, with level `ERROR`, metric `error_rate`, and value 0.06. -/
theorem check_alerts_six_percent_single_error_alert :
    (Alerts.build_alerts ⟨some (6/100), none, none, none, none, none⟩).length = 1 ∧
    ((Alerts.build_alerts ⟨some (6/100), none, none, none, none, none⟩).head?.map Alerts.Alert.level)
      = some "ERROR" ∧
    ((Alerts.build_alerts ⟨some (6/100), none, none, none, none, none⟩).head?.map Alerts.Alert.metric)
      = some "error_rate" ∧
    ((Alerts.build_alerts ⟨some (6/100), none, none, none, none, none⟩).head?.map Alerts.Alert.value)
      = some (6/100) := by
  have h1 : Alerts.error_rate_threshold < (6:ℚ)/100 := by
    norm_num [Alerts.error_rate_threshold]
  have h2 : ¬ Alerts.latency_threshold < (0:ℚ) := by
    norm_num [Alerts.latency_threshold]
  have h3 : ¬ (1:ℚ) < Alerts.data_quality_threshold := by
    norm_num [Alerts.data_quality_threshold]
  simp [Alerts.build_alerts, Alerts.resource_thresholds, Alerts.resourceValue,
    h1, h2, h3]
  norm_num

/-- C10: when `total_records` is zero, `MetricsCollector._check_alerts`
never computes or emits an error-rate warning — the division by
`total_records` is guarded by `total_records > 0`. -/
theorem no_error_rate_warning_without_records (source : String) (m : Monitoring.SourceMetrics)
    (h : m.total_records = 0) :
    ∀ (s' : String) (r : ℚ), Monitoring.MCWarning.highErrorRate s' r ∉ Monitoring.check_alerts source m := by
  intro s' r
  unfold Monitoring.check_alerts
  simp only [h]
  by_cases hl : m.latency.isEmpty
  · simp [hl]
  · simp only [hl]
    by_cases hav : Monitoring.mc_latency_threshold < m.latency.sum / (m.latency.length : ℚ)
    · simp [hav]
    · simp [hav]

/-- Witness for C10 at a concrete collector state with three recorded errors
and zero records. -/
theorem no_error_rate_warning_without_records_witness :
    Monitoring.MCWarning.highErrorRate "garmin" 1 ∉
      Monitoring.check_alerts "garmin" ⟨0, 3, []⟩ :=
  no_error_rate_warning_without_records "garmin" ⟨0, 3, []⟩ rfl "garmin" 1

/-- Setting a key makes it present with the assigned value. -/
theorem Record.lookup_set_self (r : Record) (k : String) (v : JValue) :
    (r.set k v).lookup k = some v := by
  induction r with
  | nil => simp [Record.set, Record.lookup]
  | cons p rest ih =>
    by_cases h : p.1 = k
    · simp [Record.set, Record.lookup, h]
    · simp [Record.set, Record.lookup, h, ih]

/-- The chunks of a list concatenate back to the list. -/
theorem TemplateLoader.chunksSucc_flatten (n : Nat) (l : List α) :
    (TemplateLoader.chunksSucc n l).flatten = l := by
  match l with
  | [] => simp [TemplateLoader.chunksSucc]
  | x :: xs =>
    rw [TemplateLoader.chunksSucc]
    simp only [List.flatten_cons]
    rw [TemplateLoader.chunksSucc_flatten n ((x :: xs).drop (n + 1))]
    exact List.take_append_drop (n + 1) (x :: xs)
termination_by l.length
decreasing_by simp; omega

/-- Each record of a batch bumps exactly one of the two counters. -/
theorem TemplateLoader.load_batch_counts (s : String) (ins : Record → Except String Unit)
    (batch : List Record) :
    (TemplateLoader.load_batch s ins batch).1.successful_records
      + (TemplateLoader.load_batch s ins batch).1.failed_records = batch.length := by
  induction batch with
  | nil => rfl
  | cons r rest ih =>
    simp only [TemplateLoader.load_batch, List.length_cons]
    cases ins (r.set "source" (.str s)) <;> simp <;> omega

/-- Folding batch results only ever adds per-batch counters. -/
theorem TemplateLoader.load_foldl_counts (s : String) (ins : Record → Except String Unit)
    (bs : List (List Record)) (acc : TemplateLoader.LoadResult) :
    (bs.foldl
      (fun acc batch =>
        let br := (TemplateLoader.load_batch s ins batch).1
        (⟨acc.total_records, acc.successful_records + br.successful_records,
          acc.failed_records + br.failed_records, acc.errors ++ br.errors⟩ :
          TemplateLoader.LoadResult))
      acc).successful_records
    + (bs.foldl
      (fun acc batch =>
        let br := (TemplateLoader.load_batch s ins batch).1
        (⟨acc.total_records, acc.successful_records + br.successful_records,
          acc.failed_records + br.failed_records, acc.errors ++ br.errors⟩ :
          TemplateLoader.LoadResult))
      acc).failed_records
    = acc.successful_records + acc.failed_records + (bs.map List.length).sum ∧
    (bs.foldl
      (fun acc batch =>
        let br := (TemplateLoader.load_batch s ins batch).1
        (⟨acc.total_records, acc.successful_records + br.successful_records,
          acc.failed_records + br.failed_records, acc.errors ++ br.errors⟩ :
          TemplateLoader.LoadResult))
      acc).total_records = acc.total_records := by
  induction bs generalizing acc with
  | nil => simp
  | cons b rest ih =>
    simp only [List.foldl_cons, List.map_cons, List.sum_cons]
    have h := ih ⟨acc.total_records,
      acc.successful_records + (TemplateLoader.load_batch s ins b).1.successful_records,
      acc.failed_records + (TemplateLoader.load_batch s ins b).1.failed_records,
      acc.errors ++ (TemplateLoader.load_batch s ins b).1.errors⟩
    refine ⟨?_, h.2⟩
    rw [h.1]
    have hb := TemplateLoader.load_batch_counts s ins b
    simp only
    omega

/-- C3: for every input list of records, the loader's run-level result has
`total_records` equal to the input length and
`successful_records + failed_records = total_records`; the same count
identity holds for every one of its batches. -/
theorem load_counts_add_up (s : String) (ins : Record → Except String Unit)
    (data : List Record) :
    (TemplateLoader.load s ins data).successful_records
      + (TemplateLoader.load s ins data).failed_records
      = (TemplateLoader.load s ins data).total_records ∧
    (TemplateLoader.load s ins data).total_records = data.length ∧
    ∀ b ∈ TemplateLoader.chunksSucc (TemplateLoader.batch_size - 1) data,
      (TemplateLoader.load_batch s ins b).1.successful_records
        + (TemplateLoader.load_batch s ins b).1.failed_records = b.length := by
  have hf := TemplateLoader.load_foldl_counts s ins
    (TemplateLoader.chunksSucc (TemplateLoader.batch_size - 1) data) ⟨data.length, 0, 0, []⟩
  have hsum : ((TemplateLoader.chunksSucc (TemplateLoader.batch_size - 1) data).map List.length).sum
      = data.length := by
    rw [← List.length_flatten, TemplateLoader.chunksSucc_flatten]
  refine ⟨?_, ?_, ?_⟩
  · show (TemplateLoader.load s ins data).successful_records
      + (TemplateLoader.load s ins data).failed_records
      = (TemplateLoader.load s ins data).total_records
    unfold TemplateLoader.load
    rw [hf.1, hf.2, hsum]
    simp
  · show (TemplateLoader.load s ins data).total_records = data.length
    unfold TemplateLoader.load
    rw [hf.2]
  · intro b _
    exact TemplateLoader.load_batch_counts s ins b

/-- An insert oracle that always succeeds (a healthy database). -/
def insAlwaysOk : Record → Except String Unit := fun _ => .ok ()

/-- An insert oracle that always fails (every insert raises). -/
def insAlwaysFail : Record → Except String Unit := fun _ => .error "duplicate key"

/-- A small concrete record. -/
def recA : Record := [("raw_id", JValue.str "r1"), ("raw_data", JValue.other)]

/-- Witness for C3 on a concrete one-record load. -/
theorem load_counts_add_up_witness :
    (TemplateLoader.load "garmin" insAlwaysOk [recA]).successful_records
      + (TemplateLoader.load "garmin" insAlwaysOk [recA]).failed_records
      = (TemplateLoader.load "garmin" insAlwaysOk [recA]).total_records ∧
    (TemplateLoader.load "garmin" insAlwaysOk [recA]).total_records = 1 :=
  ⟨(load_counts_add_up "garmin" insAlwaysOk [recA]).1,
   (load_counts_add_up "garmin" insAlwaysOk [recA]).2.1⟩

/-- C4: `_load_batch` always returns (never propagates a per-record insert
failure); its error list is exactly one `(record_id, message)` entry per
failing record, in batch order, and the counters count the successes and
failures — so every record after a failure is still attempted. -/
theorem load_batch_isolates_failures (s : String) (ins : Record → Except String Unit)
    (batch : List Record) :
    (TemplateLoader.load_batch s ins batch).1.errors
      = batch.filterMap (fun r =>
          match ins (r.set "source" (.str s)) with
          | .error e => some ((r.set "source" (.str s)).getD "raw_id" (.str "unknown"), e)
          | .ok _ => none) ∧
    (TemplateLoader.load_batch s ins batch).1.successful_records
      = (batch.filter (fun r => isOkB (ins (r.set "source" (.str s))))).length ∧
    (TemplateLoader.load_batch s ins batch).1.failed_records
      = (batch.filter (fun r => !isOkB (ins (r.set "source" (.str s))))).length := by
  induction batch with
  | nil => exact ⟨rfl, rfl, rfl⟩
  | cons r rest ih =>
    simp only [TemplateLoader.load_batch, List.filterMap_cons, List.filter_cons]
    rcases h : ins (r.set "source" (.str s)) with e | u
    · simp [h, isOkB, ih.1, ih.2.1, ih.2.2]
      omega
    · simp [h, isOkB, ih.1, ih.2.1, ih.2.2]
      omega

/-- Witness for C4 on a concrete two-record batch whose inserts all fail. -/
theorem load_batch_isolates_failures_witness :
    (TemplateLoader.load_batch "garmin" insAlwaysFail [recA, recA]).1.errors
      = [recA, recA].filterMap (fun r =>
          match insAlwaysFail (r.set "source" (.str "garmin")) with
          | .error e => some ((r.set "source" (.str "garmin")).getD "raw_id" (.str "unknown"), e)
          | .ok _ => none) :=
  (load_batch_isolates_failures "garmin" insAlwaysFail [recA, recA]).1

/-- C9: `_load_batch` hands back the caller's records with `record['source']`
set to the loader's source name — for every record of the batch, including
those whose insert fails — so the input list is mutated, not left unchanged. -/
theorem load_batch_mutates_source_field (s : String) (ins : Record → Except String Unit)
    (batch : List Record) :
    (TemplateLoader.load_batch s ins batch).2
      = batch.map (fun r => r.set "source" (.str s)) ∧
    ∀ r' ∈ (TemplateLoader.load_batch s ins batch).2,
      r'.lookup "source" = some (.str s) := by
  have hmap : (TemplateLoader.load_batch s ins batch).2
      = batch.map (fun r => r.set "source" (.str s)) := by
    induction batch with
    | nil => rfl
    | cons r rest ih =>
      simp only [TemplateLoader.load_batch, List.map_cons]
      exact congrArg _ ih
  refine ⟨hmap, ?_⟩
  intro r' hr'
  rw [hmap] at hr'
  rcases List.mem_map.mp hr' with ⟨r, _, rfl⟩
  exact Record.lookup_set_self r "source" (.str s)

/-- Witness for C9 on a concrete batch whose insert fails: the caller's
record still carries the new `source` field. -/
theorem load_batch_mutates_source_field_witness :
    (TemplateLoader.load_batch "garmin" insAlwaysFail [recA]).2
      = [recA.set "source" (.str "garmin")] :=
  (load_batch_mutates_source_field "garmin" insAlwaysFail [recA]).1

/-- On an all-transient oracle, the retry loop runs through all remaining
attempt indices, sleeping `retry_delay * (attempt + 1)` after each failed
non-final attempt, and propagates the final attempt's error. -/
theorem Extractor.fetch_page_go_all_transient
    (oracle : Nat → Extractor.FetchOutcome) (e : Nat → String) (rd : ℚ) (n : Nat) :
    ∀ (s len : Nat), s + len = n → 1 ≤ len →
      (∀ a, a < n → oracle a = .transient (e a)) →
      Extractor.fetch_page_go oracle rd n (List.range' s len)
        = ⟨.error (e (n - 1)),
           (List.range' s (len - 1)).map (fun a : Nat => rd * ((a : ℚ) + 1)), len⟩ := by
  intro s len
  induction len generalizing s with
  | zero => omega
  | succ k ih =>
    intro hsn _ htrans
    match k with
    | 0 =>
      have hs : s = n - 1 := by omega
      rw [List.range'_succ, Extractor.fetch_page_go]
      simp only [htrans s (by omega)]
      simp [hs, List.range']
    | m + 1 =>
      have hs : ¬ s = n - 1 := by omega
      rw [List.range'_succ, Extractor.fetch_page_go]
      simp only [htrans s (by omega)]
      rw [if_neg hs]
      rw [ih (s + 1) (by omega) (by omega) htrans]
      simp only [Nat.add_sub_cancel]
      rw [List.range'_succ]
      simp

/-- C5: with at least one configured attempt, (a) an all-transient page
fetch makes exactly `retry_attempts` attempts — the same page is retried
`retry_attempts - 1` times, at most `retryAttempts` — sleeping
`retry_delay * k` before the k-th retry, and the final attempt's error
propagates; (b) a non-transient failure propagates immediately after a
single attempt with no backoff sleep; (c) a failing page aborts the whole
`fetch_data` extraction with that error. -/
theorem fetch_page_retry_policy (cfg : Extractor.Config)
    (otrans ofatal : Nat → Extractor.FetchOutcome) (e : Nat → String) (m : String)
    (hn : 1 ≤ cfg.retry_attempts)
    (htrans : ∀ a, a < cfg.retry_attempts → otrans a = .transient (e a))
    (hfatal : ofatal 0 = .fatal m)
    (d : Nat) (ds : List Nat) :
    Extractor.fetch_page otrans cfg
      = ⟨.error (e (cfg.retry_attempts - 1)),
         (List.range' 0 (cfg.retry_attempts - 1)).map
           (fun a : Nat => cfg.retry_delay * ((a : ℚ) + 1)),
         cfg.retry_attempts⟩ ∧
    Extractor.fetch_page ofatal cfg = ⟨.error m, [], 1⟩ ∧
    Extractor.fetch_data_go (fun _ => otrans) cfg (d :: ds)
      = .error (e (cfg.retry_attempts - 1)) := by
  have h1 : Extractor.fetch_page otrans cfg
      = ⟨.error (e (cfg.retry_attempts - 1)),
         (List.range' 0 (cfg.retry_attempts - 1)).map
           (fun a : Nat => cfg.retry_delay * ((a : ℚ) + 1)),
         cfg.retry_attempts⟩ := by
    unfold Extractor.fetch_page
    rw [List.range_eq_range']
    exact Extractor.fetch_page_go_all_transient otrans e cfg.retry_delay
      cfg.retry_attempts 0 cfg.retry_attempts (by omega) hn htrans
  refine ⟨h1, ?_, ?_⟩
  · obtain ⟨k, hk⟩ : ∃ k, cfg.retry_attempts = k + 1 := ⟨cfg.retry_attempts - 1, by omega⟩
    unfold Extractor.fetch_page
    rw [List.range_eq_range', hk, List.range'_succ]
    simp [Extractor.fetch_page_go, hfatal]
  · unfold Extractor.fetch_data_go
    rw [h1]

/-- Witness for C5: three configured attempts, a five-second base delay, an
always-transient oracle and an immediately-fatal oracle. -/
theorem fetch_page_retry_policy_witness :
    Extractor.fetch_page (fun _ => Extractor.FetchOutcome.transient "timeout") ⟨100, 3, 5⟩
      = ⟨.error "timeout",
         (List.range' 0 2).map (fun a : Nat => (5 : ℚ) * ((a : ℚ) + 1)), 3⟩ ∧
    Extractor.fetch_page (fun _ => Extractor.FetchOutcome.fatal "malformed") ⟨100, 3, 5⟩
      = ⟨.error "malformed", [], 1⟩ ∧
    Extractor.fetch_data_go (fun _ _ => Extractor.FetchOutcome.transient "timeout") ⟨100, 3, 5⟩ [0]
      = .error "timeout" :=
  fetch_page_retry_policy ⟨100, 3, 5⟩
    (fun _ => Extractor.FetchOutcome.transient "timeout")
    (fun _ => Extractor.FetchOutcome.fatal "malformed")
    (fun _ => "timeout") "malformed" (by decide)
    (fun _ _ => rfl) rfl 0 []

/-- Creating an already-present partition leaves the database unchanged
(and raises no error). -/
theorem SourceOne.create_mem_noop (st : SourceOne.DbState) (s d : String)
    (h : (s, d) ∈ st.partitions) :
    SourceOne.create_partition_if_not_exists st s d = st := by
  simp [SourceOne.create_partition_if_not_exists, h]

/-- Once the batch's partition exists, the rest of the load loop never
changes the database state. -/
theorem SourceOne.load_go_state_fixed (ins : Record → Except String Unit) :
    ∀ (data : List Record) (D : String),
      (∀ r ∈ data, ∃ ts, r.lookup "source_timestamp" = some (.str ts) ∧
        SourceOne.dateOf ts = D) →
      ∀ st : SourceOne.DbState, ("source_1", D) ∈ st.partitions →
        (SourceOne.load_go ins data st).1 = st := by
  intro data
  induction data with
  | nil => intro D _ st _; rfl
  | cons r rest ih =>
    intro D hdates st hmem
    obtain ⟨ts, hts, hdate⟩ := hdates r (List.mem_cons_self r rest)
    have hst' : SourceOne.ensure_partition st ts = st := by
      unfold SourceOne.ensure_partition
      rw [hdate]
      exact SourceOne.create_mem_noop st _ _ hmem
    have hrest := fun x hx => hdates x (List.mem_cons_of_mem r hx)
    cases hi : ins r with
    | ok u =>
      simp only [SourceOne.load_go, hts, hi, hst']
      exact ih D hrest st hmem
    | error e =>
      simp only [SourceOne.load_go, hts, hi, hst']
      exact ih D hrest st hmem

/-- C7: for every non-empty batch whose records all carry the same
partition date, exactly one partition creation happens regardless of the
batch size (even though `_ensure_partition` runs once per record), and
`create_partition_if_not_exists` is idempotent: re-creating an existing
date partition is a no-op, not an error. -/
theorem partition_created_once_per_batch (ins : Record → Except String Unit)
    (data : List Record) (st : SourceOne.DbState) (D : String)
    (hne : data ≠ [])
    (hdates : ∀ r ∈ data, ∃ ts, r.lookup "source_timestamp" = some (.str ts) ∧
      SourceOne.dateOf ts = D)
    (habsent : ("source_1", D) ∉ st.partitions) :
    (SourceOne.load ins data st).2.creations = st.creations ++ [("source_1", D)] ∧
    (∀ (st' : SourceOne.DbState) (s d : String),
      SourceOne.create_partition_if_not_exists
          (SourceOne.create_partition_if_not_exists st' s d) s d
        = SourceOne.create_partition_if_not_exists st' s d) := by
  constructor
  · match data, hne with
    | r :: rest, _ =>
      obtain ⟨ts, hts, hdate⟩ := hdates r (List.mem_cons_self r rest)
      have hst1 : SourceOne.ensure_partition st ts
          = ⟨("source_1", D) :: st.partitions, st.creations ++ [("source_1", D)]⟩ := by
        unfold SourceOne.ensure_partition
        rw [hdate]
        simp [SourceOne.create_partition_if_not_exists, habsent]
      have hrest := fun x hx => hdates x (List.mem_cons_of_mem r hx)
      have hfix := SourceOne.load_go_state_fixed ins rest D hrest
        ⟨("source_1", D) :: st.partitions, st.creations ++ [("source_1", D)]⟩
        (List.mem_cons_self _ _)
      show (SourceOne.load_go ins (r :: rest) st).1.creations = _
      cases hi : ins r with
      | ok u => simp only [SourceOne.load_go, hts, hi, hst1, hfix]
      | error e => simp only [SourceOne.load_go, hts, hi, hst1, hfix]
  · intro st' s d
    by_cases h : (s, d) ∈ st'.partitions
    · simp [SourceOne.create_partition_if_not_exists, h]
    · simp [SourceOne.create_partition_if_not_exists, h]

/-- A record with the witness timestamp. -/
def recT : Record :=
  [("source_timestamp", JValue.str "2024-01-01T10:00:00"),
   ("raw_id", JValue.str "r1"), ("raw_data", JValue.other)]

/-- Witness for C7 on a concrete two-record batch against an empty
database. -/
theorem partition_created_once_per_batch_witness :
    (SourceOne.load insAlwaysOk [recT, recT] ⟨[], []⟩).2.creations
      = [] ++ [("source_1", "2024-01-01")] :=
  (partition_created_once_per_batch insAlwaysOk [recT, recT] ⟨[], []⟩ "2024-01-01"
    (by decide)
    (by
      intro r hr
      rcases List.mem_cons.mp hr with h | h
      · exact ⟨"2024-01-01T10:00:00", by rw [h]; exact ⟨rfl, rfl⟩⟩
      · rcases List.mem_cons.mp h with h' | h'
        · exact ⟨"2024-01-01T10:00:00", by rw [h']; exact ⟨rfl, rfl⟩⟩
        · cases h')
    (by decide)).1

/-- `_process_alert` always appends exactly the stamped alert to the
history, whatever the notification path does. -/
theorem Alerts.process_alert_history (cfg : Alerts.AMConfig)
    (send : Alerts.StampedAlert → Except String Unit) (now : String)
    (st : Alerts.AMState) (a : Alerts.Alert) :
    (Alerts.process_alert cfg send now st a).alert_history
      = st.alert_history ++ [⟨a, now⟩] := by
  unfold Alerts.process_alert
  by_cases he : cfg.enable_notifications
  · simp only [he, if_true]
    unfold Alerts.send_notification
    by_cases hs : cfg.has_smtp_config
    · simp only [hs, Bool.not_true, Bool.false_eq_true, if_false]
      cases send ⟨a, now⟩ <;> rfl
    · simp only [Bool.not_eq_true] at hs
      simp [hs]
  · simp only [Bool.not_eq_true] at he
    simp [he]

/-- `_process_alert` appends the log line for its alert first, followed only
by notification events. -/
theorem Alerts.process_alert_events (cfg : Alerts.AMConfig)
    (send : Alerts.StampedAlert → Except String Unit) (now : String)
    (st : Alerts.AMState) (a : Alerts.Alert) :
    ∃ l, (Alerts.process_alert cfg send now st a).events
      = st.events ++ (.logged a.level a.message :: l) := by
  unfold Alerts.process_alert
  by_cases he : cfg.enable_notifications
  · simp only [he, if_true]
    unfold Alerts.send_notification
    by_cases hs : cfg.has_smtp_config
    · simp only [hs, Bool.not_true, Bool.false_eq_true, if_false]
      cases send ⟨a, now⟩ with
      | ok u => exact ⟨[.smtpSend ⟨a, now⟩], by simp⟩
      | error e => exact ⟨[.smtpSend ⟨a, now⟩, .sendFailureLogged e], by simp⟩
    · simp only [Bool.not_eq_true] at hs
      exact ⟨[], by simp [hs]⟩
  · simp only [Bool.not_eq_true] at he
    exact ⟨[], by simp [he]⟩

/-- With notifications disabled, `_process_alert` only logs. -/
theorem Alerts.process_alert_events_disabled (cfg : Alerts.AMConfig)
    (send : Alerts.StampedAlert → Except String Unit) (now : String)
    (st : Alerts.AMState) (a : Alerts.Alert)
    (he : cfg.enable_notifications = false) :
    (Alerts.process_alert cfg send now st a).events
      = st.events ++ [.logged a.level a.message] := by
  unfold Alerts.process_alert
  simp [he]

/-- With notifications enabled, smtp configured and a failing dispatch,
`_process_alert` logs the alert, attempts the send, and logs the failure —
returning normally. -/
theorem Alerts.process_alert_events_fail (cfg : Alerts.AMConfig)
    (send : Alerts.StampedAlert → Except String Unit) (now : String)
    (st : Alerts.AMState) (a : Alerts.Alert) (e : String)
    (he : cfg.enable_notifications = true) (hs : cfg.has_smtp_config = true)
    (hf : send ⟨a, now⟩ = .error e) :
    (Alerts.process_alert cfg send now st a).events
      = st.events ++ [.logged a.level a.message, .smtpSend ⟨a, now⟩,
          .sendFailureLogged e] := by
  unfold Alerts.process_alert Alerts.send_notification
  simp [he, hs, hf]

/-- The alert loop only ever appends events. -/
theorem Alerts.process_alerts_events_extends (cfg : Alerts.AMConfig)
    (send : Alerts.StampedAlert → Except String Unit) (now : String) :
    ∀ (alerts : List Alerts.Alert) (st : Alerts.AMState),
      ∃ l, (Alerts.process_alerts cfg send now st alerts).events = st.events ++ l := by
  intro alerts
  induction alerts with
  | nil => exact fun st => ⟨[], by simp [Alerts.process_alerts]⟩
  | cons a rest ih =>
    intro st
    obtain ⟨l1, h1⟩ := Alerts.process_alert_events cfg send now st a
    obtain ⟨l2, h2⟩ := ih (Alerts.process_alert cfg send now st a)
    refine ⟨(.logged a.level a.message :: l1) ++ l2, ?_⟩
    show (Alerts.process_alerts cfg send now (Alerts.process_alert cfg send now st a) rest).events = _
    rw [h2, h1, List.append_assoc]

/-- C8: every alert in a `check_alerts` run is stamped with the processing
time, appended to the alert history (in order), and logged; with
notifications disabled no dispatch ever happens; and a failing SMTP dispatch
is itself logged but never raised, so every subsequent alert is still
processed. -/
theorem alert_processing_best_effort (cfg : Alerts.AMConfig)
    (send : Alerts.StampedAlert → Except String Unit) (now : String)
    (st : Alerts.AMState) (alerts : List Alerts.Alert) :
    (Alerts.process_alerts cfg send now st alerts).alert_history
      = st.alert_history ++ alerts.map (fun a => (⟨a, now⟩ : Alerts.StampedAlert)) ∧
    (∀ a ∈ alerts, Alerts.AMEvent.logged a.level a.message
        ∈ (Alerts.process_alerts cfg send now st alerts).events) ∧
    (cfg.enable_notifications = false →
      (Alerts.process_alerts cfg send now st alerts).events
        = st.events ++ alerts.map (fun a => Alerts.AMEvent.logged a.level a.message)) ∧
    (∀ a ∈ alerts, ∀ e, cfg.enable_notifications = true →
      cfg.has_smtp_config = true → send ⟨a, now⟩ = .error e →
      Alerts.AMEvent.sendFailureLogged e
        ∈ (Alerts.process_alerts cfg send now st alerts).events) := by
  induction alerts generalizing st with
  | nil =>
    refine ⟨by simp [Alerts.process_alerts], by simp, by simp [Alerts.process_alerts], by simp⟩
  | cons a rest ih =>
    have hstep : Alerts.process_alerts cfg send now st (a :: rest)
        = Alerts.process_alerts cfg send now (Alerts.process_alert cfg send now st a) rest := rfl
    refine ⟨?_, ?_, ?_, ?_⟩
    · rw [hstep, (ih (Alerts.process_alert cfg send now st a)).1,
        Alerts.process_alert_history]
      simp
    · intro x hx
      rcases List.mem_cons.mp hx with h | h
      · subst h
        rw [hstep]
        obtain ⟨l1, h1⟩ := Alerts.process_alert_events cfg send now st x
        obtain ⟨l2, h2⟩ := Alerts.process_alerts_events_extends cfg send now rest
          (Alerts.process_alert cfg send now st x)
        rw [h2, h1]
        simp
      · rw [hstep]
        exact (ih (Alerts.process_alert cfg send now st a)).2.1 x h
    · intro he
      rw [hstep, (ih (Alerts.process_alert cfg send now st a)).2.2.1 he,
        Alerts.process_alert_events_disabled cfg send now st a he]
      simp
    · intro x hx e he hs hf
      rcases List.mem_cons.mp hx with h | h
      · subst h
        rw [hstep]
        obtain ⟨l2, h2⟩ := Alerts.process_alerts_events_extends cfg send now rest
          (Alerts.process_alert cfg send now st x)
        rw [h2, Alerts.process_alert_events_fail cfg send now st x e he hs hf]
        simp
      · rw [hstep]
        exact (ih (Alerts.process_alert cfg send now st a)).2.2.2 x h e he hs hf

/-- An alert used by concrete witnesses. -/
def alertA : Alerts.Alert :=
  ⟨"ERROR", "High error rate detected: 3/50", "error_rate", 6/100, 5/100⟩

/-- Witness for C8: one alert processed from the empty state with
notifications disabled. -/
theorem alert_processing_best_effort_witness :
    (Alerts.process_alerts ⟨false, false⟩ (fun _ => .ok ()) "2024-01-01T00:00:00"
        ⟨[], []⟩ [alertA]).alert_history
      = [] ++ [alertA].map (fun a => (⟨a, "2024-01-01T00:00:00"⟩ : Alerts.StampedAlert)) :=
  (alert_processing_best_effort ⟨false, false⟩ (fun _ => .ok ()) "2024-01-01T00:00:00"
    ⟨[], []⟩ [alertA]).1

/-- A substring of the right part of an append is a substring of the whole. -/
theorem containsB_append_right (n l2 : List Char) (h : containsB n l2 = true) :
    ∀ l1 : List Char, containsB n (l1 ++ l2) = true := by
  intro l1
  induction l1 with
  | nil => simpa
  | cons a as ih =>
    simp only [List.cons_append, containsB, List.append_eq]
    rw [ih]
    simp

/-- The reclassification predicate accepts a rendered below-minimum
violation of the `value` property. -/
theorem isValueRangeErr_below (v mn : ℚ) :
    Validation.isValueRangeErr
      (Validation.renderErr (.belowMin "value" v mn)) = true := by
  have hsplit : (Validation.renderErr (.belowMin "value" v mn)).toList
      = ((toString v).toList ++ (" is less than the minimum of ".toList
          ++ (toString mn).toList)) ++ Validation.belowCtx.toList := by
    simp [Validation.renderErr, Validation.belowCtx, String.data_append, List.append_assoc]
  unfold Validation.isValueRangeErr Validation.strContainsLower Validation.lowerList
  rw [hsplit, List.map_append]
  have hv : containsB "value".toList
      (List.map Char.toLower Validation.belowCtx.toList) = true := by decide
  have hm : containsB "minimum".toList
      (List.map Char.toLower Validation.belowCtx.toList) = true := by decide
  rw [containsB_append_right _ _ hv, containsB_append_right _ _ hm]
  rfl

/-- The reclassification predicate accepts a rendered above-maximum
violation of the `value` property. -/
theorem isValueRangeErr_above (v mx : ℚ) :
    Validation.isValueRangeErr
      (Validation.renderErr (.aboveMax "value" v mx)) = true := by
  have hsplit : (Validation.renderErr (.aboveMax "value" v mx)).toList
      = ((toString v).toList ++ (" is greater than the maximum of ".toList
          ++ (toString mx).toList)) ++ Validation.aboveCtx.toList := by
    simp [Validation.renderErr, Validation.aboveCtx, String.data_append, List.append_assoc]
  unfold Validation.isValueRangeErr Validation.strContainsLower Validation.lowerList
  rw [hsplit, List.map_append]
  have hv : containsB "value".toList
      (List.map Char.toLower Validation.aboveCtx.toList) = true := by decide
  have hm : containsB "maximum".toList
      (List.map Char.toLower Validation.aboveCtx.toList) = true := by decide
  rw [containsB_append_right _ _ hv, containsB_append_right _ _ hm]
  simp

/-- `findSome?` over properties that are clean except for `value` entries,
all answering `b`, returns `b` as soon as some `value` entry exists. -/
theorem findSome_first_value {β : Type} (f : String × Validation.PropSchema → Option β) (b : β) :
    ∀ l : List (String × Validation.PropSchema),
      (∀ p ∈ l, p.1 ≠ "value" → f p = none) →
      (∀ p ∈ l, p.1 = "value" → f p = some b) →
      (∃ p ∈ l, p.1 = "value") →
      l.findSome? f = some b := by
  intro l
  induction l with
  | nil =>
    intro _ _ hex
    rcases hex with ⟨p, hp, _⟩
    cases hp
  | cons p rest ih =>
    intro hother hval hex
    rw [List.findSome?_cons]
    by_cases hp : p.1 = "value"
    · rw [hval p (List.mem_cons_self p rest) hp]
    · rw [hother p (List.mem_cons_self p rest) hp]
      exact ih (fun x hx => hother x (List.mem_cons_of_mem p hx))
        (fun x hx => hval x (List.mem_cons_of_mem p hx))
        (by
          rcases hex with ⟨q, hq, hq1⟩
          rcases List.mem_cons.mp hq with h | h
          · exact absurd (h ▸ hq1) hp
          · exact ⟨q, h, hq1⟩)

/-- On a record that is schema-clean except for an out-of-range numeric
`value`, the first jsonschema violation is exactly that range violation. -/
theorem firstSchemaError_out_of_range (s : Validation.Schema) (data : Record)
    (v mn mx : ℚ)
    (hreq : ∀ f ∈ s.required, (Record.lookup data f).isSome = true)
    (hother : ∀ p ∈ s.properties, p.1 ≠ "value" →
      Validation.propCheck p.1 p.2 (Record.lookup data p.1) = none)
    (hvps : ∀ p ∈ s.properties, p.1 = "value" →
      p.2 = ⟨some "number", some mn, some mx⟩)
    (hvmem : ("value", (⟨some "number", some mn, some mx⟩ : Validation.PropSchema)) ∈ s.properties)
    (hlookup : Record.lookup data "value" = some (.num v))
    (hout : v < mn ∨ (mn ≤ v ∧ mx < v)) :
    Validation.firstSchemaError s data
      = some (if v < mn then .belowMin "value" v mn else .aboveMax "value" v mx) := by
  unfold Validation.firstSchemaError
  have hfind : s.required.find? (fun f => !(Record.lookup data f).isSome) = none :=
    List.find?_eq_none.mpr (fun x hx => by rw [hreq x hx]; simp)
  rw [hfind]
  apply findSome_first_value _ _ s.properties hother _ ⟨_, hvmem, rfl⟩
  intro p hp hpv
  have hps := hvps p hp hpv
  rw [hpv, hps, hlookup]
  rcases hout with h | ⟨h1, h2⟩
  · simp [Validation.propCheck, Validation.typeMatches, Validation.rangeCheck, h]
  · simp [Validation.propCheck, Validation.typeMatches, Validation.rangeCheck,
      not_lt.mpr h1, h2]

/-- C2: a record whose numeric `value` lies outside the schema's configured
`[minimum, maximum]` but is otherwise schema-valid (required fields present,
all other properties clean, timestamp — if any — parseable, custom rules
passing) validates to `isValid = true` with an empty error list and a
non-empty warning list: the out-of-range condition is reclassified as a
warning, never an error. -/
theorem out_of_range_value_is_warning_not_error
    (parse_ok : List Char → Bool) (s : Validation.Schema)
    (rules : List (Record → Bool × Option String)) (data : Record)
    (v mn mx : ℚ)
    (hreq : ∀ f ∈ s.required, (Record.lookup data f).isSome = true)
    (hother : ∀ p ∈ s.properties, p.1 ≠ "value" →
      Validation.propCheck p.1 p.2 (Record.lookup data p.1) = none)
    (hvps : ∀ p ∈ s.properties, p.1 = "value" →
      p.2 = ⟨some "number", some mn, some mx⟩)
    (hvmem : ("value", (⟨some "number", some mn, some mx⟩ : Validation.PropSchema)) ∈ s.properties)
    (hlookup : Record.lookup data "value" = some (.num v))
    (hout : v < mn ∨ (mn ≤ v ∧ mx < v))
    (hts : Validation.tsStep parse_ok data = .ok [])
    (hrules : Validation.customErrors rules data = []) :
    ∃ res, Validation.validate parse_ok s rules data = .ok res ∧
      res.is_valid = true ∧ res.errors = [] ∧ res.warnings ≠ [] := by
  have h5 := firstSchemaError_out_of_range s data v mn mx hreq hother hvps hvmem hlookup hout
  have hVRE : Validation.isValueRangeErr (Validation.renderErr
      (if v < mn then .belowMin "value" v mn else .aboveMax "value" v mx)) = true := by
    rcases hout with h | ⟨h1, _⟩
    · rw [if_pos h]
      exact isValueRangeErr_below v mn
    · rw [if_neg (not_lt.mpr h1)]
      exact isValueRangeErr_above v mx
  have hhf : Record.hasField data "value" = true := by
    unfold Record.hasField
    rw [hlookup]
    rfl
  refine ⟨⟨true, [], Validation.rangeWarnings s data ++
    [Validation.renderErr (if v < mn then .belowMin "value" v mn
      else .aboveMax "value" v mx)]⟩, ?_, rfl, rfl, by simp⟩
  unfold Validation.validate
  rw [h5, hts]
  simp [hrules, hhf, hVRE, List.filter]

/-- The schema shape of `tests/unit/test_validation.py` with range bounds
configured on `value`. -/
def testSchema : Validation.Schema :=
  ⟨["id", "value"],
   [("id", ⟨some "string", none, none⟩),
    ("value", ⟨some "number", some 0, some 1000⟩)]⟩

/-- A record whose `value` is above the configured maximum but otherwise
schema-valid. -/
def recOutOfRange : Record :=
  [("id", JValue.str "test_1"), ("value", JValue.num 2000)]

/-- Witness for C2: `value = 2000` against bounds `[0, 1000]` yields a valid
record with warnings only. -/
theorem out_of_range_value_is_warning_not_error_witness :
    ∃ res, Validation.validate (fun _ => true) testSchema [] recOutOfRange = .ok res ∧
      res.is_valid = true ∧ res.errors = [] ∧ res.warnings ≠ [] :=
  out_of_range_value_is_warning_not_error (fun _ => true) testSchema [] recOutOfRange
    2000 0 1000
    (by decide) (by decide) (by decide) (by decide) (by decide)
    (Or.inr ⟨by decide, by decide⟩) rfl rfl
